import Mathlib

/-!
Verification development for the SPC stability-estimation scripts
(`src/test55.py` and `src/histogramm.py`).

The repository holds two near-duplicate scripts.  Both implement the same
pipeline: a robust sigma/median estimator (`get_robust_sigma_and_mu`), the
stability indices sigma-STAB and mu-STAB, and a rolling-window timeline.
The scripts differ in details that matter for the claims below:

* `test55.py` drops NaN values inside the estimator
  (`data = data[~np.isnan(data)]`), guards the exact mode by
  `len(data) > 10`, and guards every division by the reference sigma with
  `... if hist_sigma_ref else 0`.
* `histogramm.py` has none of these guards.

We embed both versions, in namespaces `Test55` and `Histogramm`.

Modelling conventions:

* Python / numpy floats are modelled as `Val := Option ℚ`; `none` stands for
  a non-finite float (NaN).  Arithmetic on `Val` propagates `none`; a zero
  divisor also yields `none` (numpy produces a non-finite inf/nan there).
* A Python dict returned by `get_robust_sigma_and_mu` is modelled as a
  structure; a key that is absent from the dict in some branch is modelled
  with an `Option` field whose value is `none` in that branch.
* `np.std(a, ddof=1)` takes a square root; the square root is passed in as
  an explicit function parameter `sqrt : ℚ → ℚ` so that all definitions stay
  executable.  No claim below depends on properties of the square root.
* The external `fitter`/`scipy` fitting pipeline (an installed library, not
  code of this repository) is modelled as an abstract argument producing the
  best family's name together with its quantile function `ppf`.
-/

/-- A Python/numpy float: `none` models a non-finite value (NaN). -/
abbrev Val := Option ℚ

/-- `np.abs` on a float; NaN stays NaN. -/
def vabs : Val → Val
  | none => none
  | some q => some |q|

/-- Float subtraction; NaN propagates. -/
def vsub : Val → Val → Val
  | some a, some b => some (a - b)
  | _, _ => none

/-- Float division; NaN propagates, and a zero divisor yields a non-finite
float (inf or nan), which the model folds into the `none` sentinel. -/
def vdiv : Val → Val → Val
  | some a, some b => if b = 0 then none else some (a / b)
  | _, _ => none

/-- Python truthiness of a float: `0.0` is falsy, every other float —
including NaN — is truthy. -/
def truthy : Val → Bool
  | none => true
  | some q => decide (q ≠ 0)

/-- Ascending sort of the finite values (numpy sorts before taking
quantiles). -/
def sortQ (xs : List ℚ) : List ℚ :=
  xs.mergeSort (fun a b => decide (a ≤ b))

/-- Linear-interpolation quantile on an already sorted list, exactly numpy's
default method for `np.quantile`: with `h = p * (n - 1)`, interpolate
linearly between the order statistics at `⌊h⌋` and `⌊h⌋ + 1` (the upper
index clipped to `n - 1`). -/
def interpQuantile (s : List ℚ) (p : ℚ) : ℚ :=
  s.getD (⌊p * ((s.length : ℚ) - 1)⌋).toNat 0
    + (p * ((s.length : ℚ) - 1) - ((⌊p * ((s.length : ℚ) - 1)⌋ : ℤ) : ℚ))
      * (s.getD (min ((⌊p * ((s.length : ℚ) - 1)⌋).toNat + 1) (s.length - 1)) 0
         - s.getD (⌊p * ((s.length : ℚ) - 1)⌋).toNat 0)

/-- `np.nanquantile`: ignore NaN entries; if nothing finite remains the
result is NaN. -/
def nanquantile (data : List Val) (p : ℚ) : Val :=
  let xs := data.filterMap id
  if xs.isEmpty then none else some (interpQuantile (sortQ xs) p)

/-- The median of a finite sample: middle element of the sorted sample, or
the mean of the two middle elements when the length is even (numpy's
median). -/
def medianQ (xs : List ℚ) : ℚ :=
  let s := sortQ xs
  let n := s.length
  if n % 2 = 1 then s.getD (n / 2) 0
  else (s.getD (n / 2 - 1) 0 + s.getD (n / 2) 0) / 2

/-- `np.nanmedian`: ignore NaN entries; NaN when nothing finite remains. -/
def nanmedian (data : List Val) : Val :=
  let xs := data.filterMap id
  if xs.isEmpty then none else some (medianQ xs)

/-- `np.median` over a list that may hold NaN: any NaN entry makes the
result NaN (unlike `np.nanmedian`). -/
def npMedianV (l : List Val) : Val :=
  if l.all (fun v => v.isSome) then some (medianQ (l.filterMap id)) else none

/-- Arithmetic mean. -/
def meanQ (l : List ℚ) : ℚ := l.sum / (l.length : ℚ)

/-- The Bessel-corrected sample variance (`ddof = 1`): the sum of squared
deviations from the mean divided by `n - 1`. -/
def besselVar (l : List ℚ) : ℚ :=
  (l.map (fun x => (x - meanQ l) ^ 2)).sum / ((l.length : ℚ) - 1)

/-- `np.std(a, ddof=1)` on finite data: the square root of the
Bessel-corrected sample variance.  The square root is an explicit
parameter. -/
def npStd (sqrt : ℚ → ℚ) (l : List ℚ) : ℚ := sqrt (besselVar l)

/-- `np.std(a, ddof=1)` over data that may hold NaN: NaN if any entry is
NaN. -/
def npStdV (sqrt : ℚ → ℚ) (l : List Val) : Val :=
  if l.all (fun v => v.isSome) then some (npStd sqrt (l.filterMap id)) else none

/-- The outcome of the external distribution-fitting pipeline
(`Fitter(...)`, `f.get_best(method='sumsquare_error')`, then
`getattr(stats, best_name)(*best_params)`): the chosen family's name and
the fitted distribution's quantile function `ppf`.  The `fitter` package is
an installed third-party library, so it enters the model as an abstract
argument. -/
structure FitResult where
  name : String
  ppf : ℚ → ℚ

/-- `arr.reshape(-1, 5)` on a 1-D array whose length is a multiple of 5:
the list of consecutive rows of width 5. -/
def reshapeRows {α : Type} : List α → List (List α)
  | [] => []
  | a :: rest => ((a :: rest).take 5) :: reshapeRows ((a :: rest).drop 5)
termination_by l => l.length
decreasing_by simp [List.drop]; omega

namespace Test55

/-- The dict returned by `test55.py`'s `get_robust_sigma_and_mu`.  A field
that is `none` at the outer `Option` models a key that the corresponding
branch does not put into the dict (the empty-sample branch returns only
`{'sigma_equiv': np.nan}`).  In this script the data is NaN-filtered before
use, so present numeric values are finite rationals. -/
structure RobustResult where
  sigma_equiv : Val
  median : Option ℚ := none
  lsl : Option ℚ := none
  usl : Option ℚ := none
  dist_obj : Option (Option FitResult) := none
  dist_name : Option String := none
  data_used : Option (List ℚ) := none

/-- `test55.py`, `get_robust_sigma_and_mu` (lines 17-47): optional absolute
value, NaN filtering, then either the distribution-fit branch (guarded by
`fit_distribution and len(data) > 10`), the empty branch, or the empirical
quantile branch. -/
def get_robust_sigma_and_mu (fitter : List ℚ → FitResult) (data : List Val)
    (fit_distribution : Bool) (use_abs_values : Bool) : RobustResult :=
  let data := if use_abs_values then data.map vabs else data
  let xs := data.filterMap id
  if fit_distribution ∧ 10 < xs.length then
    let fr := fitter xs
    let lsl := fr.ppf (27 / 20000)
    let usl := fr.ppf (19973 / 20000)
    let median := fr.ppf (1 / 2)
    { sigma_equiv := some ((usl - lsl) / 6),
      median := some median, lsl := some lsl, usl := some usl,
      dist_obj := some (some fr), dist_name := some fr.name,
      data_used := some xs }
  else
    if xs.length = 0 then { sigma_equiv := none }
    else
      let lsl := interpQuantile (sortQ xs) (27 / 20000)
      let usl := interpQuantile (sortQ xs) (19973 / 20000)
      { sigma_equiv := some ((usl - lsl) / 6),
        median := some (medianQ xs), lsl := some lsl, usl := some usl,
        dist_obj := some none, dist_name := some "empirical",
        data_used := some xs }

/-- `test55.py` line 59 / line 127:
`sigma_stab = res['sigma_equiv'] / hist_sigma_ref if hist_sigma_ref else 0`. -/
def sigma_stab (res : RobustResult) (hist_sigma_ref : Val) : Val :=
  if truthy hist_sigma_ref then vdiv res.sigma_equiv hist_sigma_ref
  else some 0

/-- The mu-STAB of `test55.py` (lines 62-69 in `plot_histogramm`, with
threshold 1; lines 129-136 in `plot_timeline_analysis`, with threshold 2):
carve `plot_data` into width-5 rows, take the row medians, their
`np.std(ddof=1)`, and divide by the reference (guarded by truthiness). -/
def mu_stab (sqrt : ℚ → ℚ) (plot_data : List ℚ) (hist_sigma_ref : Val)
    (thresh : ℕ) : Val :=
  let num_groups := plot_data.length / 5
  if thresh < num_groups then
    let grps := reshapeRows (plot_data.take (num_groups * 5))
    let sigma_mu := npStd sqrt (grps.map medianQ)
    if truthy hist_sigma_ref then vdiv (some sigma_mu) hist_sigma_ref
    else some 0
  else some 0

/-- One iteration of the rolling loop in `test55.py`'s
`plot_timeline_analysis` (lines 118-140): the window is
`vals.iloc[i - window_size : i]`, the key `vals.index[i]`.  The source
reads `plot_data = res['data_used']` BEFORE the
`if np.isnan(res['sigma_equiv']): continue` check; on a window that is
empty after NaN filtering the estimator returns only
`{'sigma_equiv': np.nan}` with no `data_used` key, so that read raises
`KeyError` — modelled as `Except.error "KeyError"`.  Otherwise the
iteration yields `Except.ok none` (`continue`) when `sigma_equiv` is NaN,
or the point `(date, sigma-STAB, mu-STAB)`. -/
def timelineStep (fitter : List ℚ → FitResult) (sqrt : ℚ → ℚ)
    (dates : List ℕ) (vals : List Val) (hist_sigma_ref : Val)
    (window_size : ℕ) (use_abs : Bool) (i : ℕ) :
    Except String (Option (ℕ × Val × Val)) :=
  let window_data := (vals.drop (i - window_size)).take window_size
  let current_date := dates.getD i 0
  let res := get_robust_sigma_and_mu fitter window_data false use_abs
  match res.data_used with
  | none => Except.error "KeyError"
  | some plot_data =>
    if res.sigma_equiv = none then Except.ok none
    else
      Except.ok (some (current_date,
        sigma_stab res hist_sigma_ref,
        mu_stab sqrt plot_data hist_sigma_ref 2))

/-- A Python `for` body that may raise (`Except.error`), skip
(`Except.ok none`, i.e. `continue`) or produce a value, run over an index
list: the loop stops at the first raised error, otherwise it appends the
produced values in order. -/
def collectSteps {α : Type} (step : ℕ → Except String (Option α)) :
    List ℕ → Except String (List α)
  | [] => Except.ok []
  | i :: rest =>
    match step i with
    | Except.error e => Except.error e
    | Except.ok none => collectSteps step rest
    | Except.ok (some p) =>
      match collectSteps step rest with
      | Except.error e => Except.error e
      | Except.ok l => Except.ok (p :: l)

/-- `test55.py`, `plot_timeline_analysis` (lines 108-140): sort by date,
then run `timelineStep` for `i in range(window_size, len(vals), 5)`,
collecting the points that survive the NaN check and aborting with the
KeyError if an iteration raises.  `range(a, n, 5)` is
`List.range' a ((n - a + 4) / 5) 5`.  The sort models pandas
`df.sort_values('date')`; it is stable, and any tie order produces the
same date sequence. -/
def plot_timeline_analysis (fitter : List ℚ → FitResult) (sqrt : ℚ → ℚ)
    (series : List (ℕ × Val)) (hist_sigma_ref : Val) (window_size : ℕ)
    (use_abs : Bool) : Except String (List (ℕ × Val × Val)) :=
  let df := series.mergeSort (fun a b => decide (a.1 ≤ b.1))
  let dates := df.map Prod.fst
  let vals := df.map Prod.snd
  let idxs := List.range' window_size ((vals.length - window_size + 4) / 5) 5
  collectSteps
    (timelineStep fitter sqrt dates vals hist_sigma_ref window_size use_abs)
    idxs

/-- The STAB numbers computed inside `test55.py`'s `plot_histogramm`
(lines 53-69): exact-mode estimate over the NaN-free raw data
(`df['value'].dropna().values`), sigma-STAB, and mu-STAB with subgroup
threshold 1.  The function's plotting (and its `len(raw_data) < 5` early
return, which only skips the chart) is omitted. -/
def plot_histogramm_stab (fitter : List ℚ → FitResult) (sqrt : ℚ → ℚ)
    (raw_data : List ℚ) (hist_sigma_ref : Val) (use_abs : Bool) : Val × Val :=
  let res := get_robust_sigma_and_mu fitter (raw_data.map some) true use_abs
  let plot_data := res.data_used.getD []
  (sigma_stab res hist_sigma_ref, mu_stab sqrt plot_data hist_sigma_ref 1)

end Test55

namespace Histogramm

/-- The dict returned by `histogramm.py`'s `get_robust_sigma_and_mu`.  This
script never filters NaN, so numeric values are `Val` (possibly NaN); the
outer `Option` on `dist_obj`/`dist_name` models keys the empty branch
leaves out of the dict. -/
structure RobustResult where
  sigma_equiv : Val
  median : Val
  lsl : Val
  usl : Val
  dist_obj : Option (Option FitResult) := none
  dist_name : Option String := none
  data_used : List Val

/-- `histogramm.py`, `get_robust_sigma_and_mu` (lines 27-95): optional
absolute value, then either the distribution-fit branch (no minimum-length
guard, no NaN filtering), the empty branch, or the empirical quantile
branch on the raw data. -/
def get_robust_sigma_and_mu (fitter : List Val → FitResult) (data : List Val)
    (fit_distribution : Bool) (use_abs_values : Bool) : RobustResult :=
  let data := if use_abs_values then data.map vabs else data
  if fit_distribution then
    let fr := fitter data
    let lsl := fr.ppf (27 / 20000)
    let usl := fr.ppf (19973 / 20000)
    let median := fr.ppf (1 / 2)
    { sigma_equiv := some ((usl - lsl) / 6),
      median := some median, lsl := some lsl, usl := some usl,
      dist_obj := some (some fr), dist_name := some fr.name,
      data_used := data }
  else
    if data.length = 0 then
      { sigma_equiv := none, median := none, lsl := none, usl := none,
        data_used := data }
    else
      let lsl := nanquantile data (27 / 20000)
      let usl := nanquantile data (19973 / 20000)
      { sigma_equiv := vdiv (vsub usl lsl) (some 6),
        median := nanmedian data, lsl := lsl, usl := usl,
        dist_obj := some none, dist_name := some "empirical",
        data_used := data }

/-- `histogramm.py` line 115 / line 198:
`sigma_stab = res['sigma_equiv'] / hist_sigma_ref` — no guard against a
zero or NaN reference. -/
def sigma_stab (res : RobustResult) (hist_sigma_ref : Val) : Val :=
  vdiv res.sigma_equiv hist_sigma_ref

/-- The mu-STAB of `histogramm.py` (lines 118-126 in
`plot_snapshot_analysis`, threshold 1; lines 201-208 in
`plot_timeline_analysis`, threshold 2).  `plot_data` may hold NaN here, and
the division by the reference is unguarded. -/
def mu_stab (sqrt : ℚ → ℚ) (plot_data : List Val) (hist_sigma_ref : Val)
    (thresh : ℕ) : Val :=
  let num_groups := plot_data.length / 5
  if thresh < num_groups then
    let grps := reshapeRows (plot_data.take (num_groups * 5))
    let sigma_mu := npStdV sqrt (grps.map npMedianV)
    vdiv sigma_mu hist_sigma_ref
  else some 0

/-- The STAB numbers computed inside `histogramm.py`'s
`plot_snapshot_analysis` (lines 101-126): exact-mode estimate over the
NaN-free raw data (`df['values'].dropna().values`), the unguarded
sigma-STAB, and mu-STAB with subgroup threshold 1.  Plotting omitted. -/
def plot_snapshot_stab (fitter : List Val → FitResult) (sqrt : ℚ → ℚ)
    (raw_data : List ℚ) (hist_sigma_ref : Val) (use_abs : Bool) : Val × Val :=
  let res := get_robust_sigma_and_mu fitter (raw_data.map some) true use_abs
  let plot_data := res.data_used
  (sigma_stab res hist_sigma_ref, mu_stab sqrt plot_data hist_sigma_ref 1)

/-- One iteration of the rolling loop in `histogramm.py`'s
`plot_timeline_analysis` (lines 185-212).  As in `test55.py`, the source
reads `plot_data = res['data_used']` before the NaN check, but in this
script every branch of the estimator puts `data_used` into the dict, so
the read never raises; an iteration whose `sigma_equiv` is NaN is skipped
(`continue`), the others yield `(date, sigma-STAB, mu-STAB)`. -/
def timelineStep (fitter : List Val → FitResult) (sqrt : ℚ → ℚ)
    (dates : List ℕ) (vals : List Val) (hist_sigma_ref : Val)
    (window_size : ℕ) (use_abs : Bool) (i : ℕ) : Option (ℕ × Val × Val) :=
  let window_data := (vals.drop (i - window_size)).take window_size
  let current_date := dates.getD i 0
  let res := get_robust_sigma_and_mu fitter window_data false use_abs
  let plot_data := res.data_used
  if res.sigma_equiv = none then none
  else
    some (current_date,
          sigma_stab res hist_sigma_ref,
          mu_stab sqrt plot_data hist_sigma_ref 2)

/-- `histogramm.py`, `plot_timeline_analysis` (lines 172-248): sort by
date, then run `timelineStep` for `i in range(window_size, len(vals), 5)`,
collecting the points that survive the NaN check. -/
def plot_timeline_analysis (fitter : List Val → FitResult) (sqrt : ℚ → ℚ)
    (series : List (ℕ × Val)) (hist_sigma_ref : Val) (window_size : ℕ)
    (use_abs : Bool) : List (ℕ × Val × Val) :=
  let df := series.mergeSort (fun a b => decide (a.1 ≤ b.1))
  let dates := df.map Prod.fst
  let vals := df.map Prod.snd
  let idxs := List.range' window_size ((vals.length - window_size + 4) / 5) 5
  idxs.filterMap
    (timelineStep fitter sqrt dates vals hist_sigma_ref window_size use_abs)

end Histogramm

/-! ### Spec-side definitions

The definitions in this section are written from the specification's own
wording, to be compared with the source embeddings above.  They are the
second halves of refinement claims, not translations of the source. -/

/-- The subgroup medians as §4.3 of the spec words them: "partition into
consecutive non-overlapping chunks of `subgroup_size` [5] taken in the
sample's existing order, discarding any remainder that does not fill a
full chunk", then the median of each chunk: chunk `j` holds the elements
at positions `5*j .. 5*j + 4`. -/
def specChunkMedians (sample : List ℚ) : List ℚ :=
  (List.range (sample.length / 5)).map
    (fun j => medianQ ((sample.drop (5 * j)).take 5))

/-- The mu-STAB as the spec words it: the "Bessel-corrected standard
deviation (divisor n−1) of the chunk medians", that is the square root of
the sum of squared deviations from their mean divided by `n - 1`, divided
by the reference sigma. -/
def specMuStab (sqrt : ℚ → ℚ) (sample : List ℚ) (reference_sigma : ℚ) : ℚ :=
  let meds := specChunkMedians sample
  sqrt ((meds.map (fun m => (m - meds.sum / (meds.length : ℚ)) ^ 2)).sum
        / ((meds.length : ℚ) - 1)) / reference_sigma

/-- The trailing window exactly as claim C9 words it: "the trailing
`window_size` measurements ending at the current index", i.e. the
measurements at positions `i - window_size, ..., i - 1` — the builder
never reads the element at or past the current index `i`. -/
def specWindow (vals : List Val) (window_size i : ℕ) : List Val :=
  (List.range window_size).map (fun j => vals.getD (i - window_size + j) none)

/-- The Rolling Window Trend Builder as claim C9 describes it,
instantiated with `test55.py`'s estimator and indices, from the current
index `i` on: while `i` has not reached the series end, compute a
fast-mode estimate and stability indices on the trailing window, append a
TimelinePoint keyed by the timestamp at `i` if and only if the window's
`sigma_equiv` is defined (an undefined window is skipped, leaving no gap
entry), and advance by the step 5.  This is what the claim asserts;
`test55.py` itself raises instead of skipping (see the C9 theorems). -/
def specTrendFrom (fitter : List ℚ → FitResult) (sqrt : ℚ → ℚ)
    (dates : List ℕ) (vals : List Val) (hist_sigma_ref : Val)
    (window_size : ℕ) (use_abs : Bool) (i : ℕ) : List (ℕ × Val × Val) :=
  if h : i < vals.length then
    if (Test55.get_robust_sigma_and_mu fitter
          (specWindow vals window_size i) false use_abs).sigma_equiv = none then
      specTrendFrom fitter sqrt dates vals hist_sigma_ref
        window_size use_abs (i + 5)
    else
      (dates.getD i 0,
       Test55.sigma_stab (Test55.get_robust_sigma_and_mu fitter
           (specWindow vals window_size i) false use_abs) hist_sigma_ref,
       Test55.mu_stab sqrt ((Test55.get_robust_sigma_and_mu fitter
           (specWindow vals window_size i) false use_abs).data_used.getD [])
         hist_sigma_ref 2)
        :: specTrendFrom fitter sqrt dates vals hist_sigma_ref
             window_size use_abs (i + 5)
  else []
termination_by vals.length - i
decreasing_by all_goals omega

/-- The whole spec-side trend build: sort the series by date, then iterate
from index `window_size`. -/
def specBuildTrend (fitter : List ℚ → FitResult) (sqrt : ℚ → ℚ)
    (series : List (ℕ × Val)) (hist_sigma_ref : Val) (window_size : ℕ)
    (use_abs : Bool) : List (ℕ × Val × Val) :=
  let df := series.mergeSort (fun a b => decide (a.1 ≤ b.1))
  specTrendFrom fitter sqrt (df.map Prod.fst) (df.map Prod.snd)
    hist_sigma_ref window_size use_abs window_size

/-- The Rolling Window Trend Builder as claim C9 describes it,
instantiated with `histogramm.py`'s estimator and indices: the same skip
recursion as `specTrendFrom`, undefined windows silently skipped with no
gap entry. -/
def specTrendFromH (fitter : List Val → FitResult) (sqrt : ℚ → ℚ)
    (dates : List ℕ) (vals : List Val) (hist_sigma_ref : Val)
    (window_size : ℕ) (use_abs : Bool) (i : ℕ) : List (ℕ × Val × Val) :=
  if h : i < vals.length then
    if (Histogramm.get_robust_sigma_and_mu fitter
          (specWindow vals window_size i) false use_abs).sigma_equiv = none then
      specTrendFromH fitter sqrt dates vals hist_sigma_ref
        window_size use_abs (i + 5)
    else
      (dates.getD i 0,
       Histogramm.sigma_stab (Histogramm.get_robust_sigma_and_mu fitter
           (specWindow vals window_size i) false use_abs) hist_sigma_ref,
       Histogramm.mu_stab sqrt (Histogramm.get_robust_sigma_and_mu fitter
           (specWindow vals window_size i) false use_abs).data_used
         hist_sigma_ref 2)
        :: specTrendFromH fitter sqrt dates vals hist_sigma_ref
             window_size use_abs (i + 5)
  else []
termination_by vals.length - i
decreasing_by all_goals omega

/-- The spec-side trend build for `histogramm.py`: sort by date, iterate
from index `window_size`. -/
def specBuildTrendH (fitter : List Val → FitResult) (sqrt : ℚ → ℚ)
    (series : List (ℕ × Val)) (hist_sigma_ref : Val) (window_size : ℕ)
    (use_abs : Bool) : List (ℕ × Val × Val) :=
  let df := series.mergeSort (fun a b => decide (a.1 ≤ b.1))
  specTrendFromH fitter sqrt (df.map Prod.fst) (df.map Prod.snd)
    hist_sigma_ref window_size use_abs window_size

/-- The amended description of `test55.py`'s builder, worded from its
actual behavior: like the skip recursion, but a window whose estimate has
no `data_used` (empty after NaN filtering) aborts the whole build with a
KeyError — such a window is an error, not a silent skip. -/
def specTrendFromT (fitter : List ℚ → FitResult) (sqrt : ℚ → ℚ)
    (dates : List ℕ) (vals : List Val) (hist_sigma_ref : Val)
    (window_size : ℕ) (use_abs : Bool) (i : ℕ) :
    Except String (List (ℕ × Val × Val)) :=
  if h : i < vals.length then
    if (Test55.get_robust_sigma_and_mu fitter
          (specWindow vals window_size i) false use_abs).data_used = none then
      Except.error "KeyError"
    else
      if (Test55.get_robust_sigma_and_mu fitter
            (specWindow vals window_size i) false use_abs).sigma_equiv = none then
        specTrendFromT fitter sqrt dates vals hist_sigma_ref
          window_size use_abs (i + 5)
      else
        match specTrendFromT fitter sqrt dates vals hist_sigma_ref
            window_size use_abs (i + 5) with
        | Except.error e => Except.error e
        | Except.ok l =>
          Except.ok ((dates.getD i 0,
            Test55.sigma_stab (Test55.get_robust_sigma_and_mu fitter
                (specWindow vals window_size i) false use_abs) hist_sigma_ref,
            Test55.mu_stab sqrt ((Test55.get_robust_sigma_and_mu fitter
                (specWindow vals window_size i) false use_abs).data_used.getD [])
              hist_sigma_ref 2) :: l)
  else Except.ok []
termination_by vals.length - i
decreasing_by all_goals omega

/-- The amended-description trend build for `test55.py`: sort by date,
iterate from index `window_size`. -/
def specBuildTrendT (fitter : List ℚ → FitResult) (sqrt : ℚ → ℚ)
    (series : List (ℕ × Val)) (hist_sigma_ref : Val) (window_size : ℕ)
    (use_abs : Bool) : Except String (List (ℕ × Val × Val)) :=
  let df := series.mergeSort (fun a b => decide (a.1 ≤ b.1))
  specTrendFromT fitter sqrt (df.map Prod.fst) (df.map Prod.snd)
    hist_sigma_ref window_size use_abs window_size

/-- The list a fallible builder actually produced: empty when it raised. -/
def okList {α : Type} : Except String (List α) → List α
  | Except.error _ => []
  | Except.ok l => l

/-- A concrete stand-in for the external fitting pipeline, used in
witnesses: it always reports a normal fit whose quantile function is the
identity. -/
def fitter0 : List ℚ → FitResult := fun _ => { name := "norm", ppf := id }

/-- `fitter0` over unfiltered (possibly NaN) data, for `histogramm.py`'s
estimator. -/
def fitterV0 : List Val → FitResult := fun _ => { name := "norm", ppf := id }

/-- A concrete monotone fitted distribution whose 0.135% quantile is
negative — as a normal fit to nonnegative data typically is. -/
def fitterNeg : List ℚ → FitResult := fun _ => { name := "norm", ppf := fun p => p - 1 }

/-! ### Helper lemmas -/

theorem vabs_isSome (v : Val) : (vabs v).isSome = v.isSome := by
  cases v <;> simp [vabs]

theorem filterMap_id_map_vabs (d : List Val) :
    (d.map vabs).filterMap id = (d.filterMap id).map (fun x => |x|) := by
  induction d with
  | nil => simp
  | cons a l ih => cases a <;> simp [vabs, ih]

theorem filterMap_id_filter_isSome (d : List Val) :
    (d.filter (fun v => v.isSome)).filterMap id = d.filterMap id := by
  induction d with
  | nil => simp
  | cons a l ih => cases a <;> simp [ih]

theorem filterMap_id_eq_nil (d : List Val) :
    d.filterMap id = [] ↔ d.all (fun v => v.isNone) := by
  induction d with
  | nil => simp
  | cons a l ih => cases a <;> simp [ih]

theorem filterMap_id_ne_nil (d : List Val) :
    d.filterMap id ≠ [] ↔ d.any (fun v => v.isSome) := by
  induction d with
  | nil => simp
  | cons a l ih => cases a <;> simp [ih]

theorem sortQ_sorted (xs : List ℚ) : List.Pairwise (· ≤ ·) (sortQ xs) := by
  have h := @List.sorted_mergeSort ℚ (fun a b : ℚ => decide (a ≤ b))
    (fun a b c hab hbc => by
      simp only [decide_eq_true_eq] at *
      exact le_trans hab hbc)
    (fun a b => by simpa using le_total a b) xs
  exact h.imp (fun hab => by simpa using hab)

theorem sortQ_length (xs : List ℚ) : (sortQ xs).length = xs.length :=
  List.length_mergeSort xs

theorem sortQ_mem {x : ℚ} {xs : List ℚ} : x ∈ sortQ xs ↔ x ∈ xs :=
  List.mem_mergeSort

theorem sorted_getD_mono {α : Type} [Preorder α] (d : α) {s : List α}
    (hs : List.Pairwise (· ≤ ·) s) {a b : ℕ} (hab : a ≤ b)
    (hb : b < s.length) : s.getD a d ≤ s.getD b d := by
  have ha : a < s.length := lt_of_le_of_lt hab hb
  rw [List.getD_eq_getElem s d ha, List.getD_eq_getElem s d hb]
  rcases lt_or_eq_of_le hab with h | h
  · have := List.pairwise_iff_get.mp hs ⟨a, ha⟩ ⟨b, hb⟩ h
    simpa using this
  · subst h; exact le_refl _
theorem interp_nonneg {s : List ℚ} (h : ∀ x ∈ s, 0 ≤ x) (p : ℚ) :
    0 ≤ interpQuantile s p := by
  unfold interpQuantile
  set a : ℚ := p * ((s.length : ℚ) - 1) with ha
  have hlo : 0 ≤ s.getD (⌊a⌋).toNat 0 := by
    by_cases hlt : (⌊a⌋).toNat < s.length
    · rw [List.getD_eq_getElem s 0 hlt]; exact h _ (List.getElem_mem hlt)
    · rw [List.getD_eq_default]; omega
  have hhi : 0 ≤ s.getD (min ((⌊a⌋).toNat + 1) (s.length - 1)) 0 := by
    by_cases hlt : (min ((⌊a⌋).toNat + 1) (s.length - 1)) < s.length
    · rw [List.getD_eq_getElem s 0 hlt]; exact h _ (List.getElem_mem hlt)
    · rw [List.getD_eq_default]; omega
  have ht0 : 0 ≤ a - (⌊a⌋ : ℚ) := by
    have := Int.floor_le a; linarith
  have ht1 : a - (⌊a⌋ : ℚ) < 1 := by
    have := Int.lt_floor_add_one a; linarith
  nlinarith [hlo, hhi, ht0, ht1]

theorem interp_mono {s : List ℚ} (hs : List.Pairwise (· ≤ ·) s) (hne : s ≠ [])
    {p q : ℚ} (hp0 : 0 ≤ p) (hpq : p ≤ q) (hq1 : q ≤ 1) :
    interpQuantile s p ≤ interpQuantile s q := by
  have hn : 0 < s.length := List.length_pos.mpr hne
  have hn1 : (1 : ℚ) ≤ (s.length : ℚ) := by exact_mod_cast hn
  unfold interpQuantile
  set n := s.length with hnn
  set a : ℚ := p * ((n : ℚ) - 1) with hadef
  set b : ℚ := q * ((n : ℚ) - 1) with hbdef
  have ha0 : 0 ≤ a := mul_nonneg hp0 (by linarith)
  have hab : a ≤ b := by
    apply mul_le_mul_of_nonneg_right hpq; linarith
  have hb1 : b ≤ (n : ℚ) - 1 := by nlinarith
  have hia0 : 0 ≤ ⌊a⌋ := Int.floor_nonneg.mpr ha0
  have hiab : ⌊a⌋ ≤ ⌊b⌋ := Int.floor_mono hab
  have hib0 : 0 ≤ ⌊b⌋ := le_trans hia0 hiab
  have hibn : ⌊b⌋ ≤ (n : ℤ) - 1 := by
    have h1 : ((⌊b⌋ : ℤ) : ℚ) ≤ (n : ℚ) - 1 := le_trans (Int.floor_le b) hb1
    exact_mod_cast h1
  have hIa : ((⌊a⌋).toNat : ℤ) = ⌊a⌋ := Int.toNat_of_nonneg hia0
  have hIb : ((⌊b⌋).toNat : ℤ) = ⌊b⌋ := Int.toNat_of_nonneg hib0
  have hta0 : 0 ≤ a - ((⌊a⌋ : ℤ) : ℚ) := by have := Int.floor_le a; linarith
  have hta1 : a - ((⌊a⌋ : ℤ) : ℚ) < 1 := by have := Int.lt_floor_add_one a; linarith
  have htb0 : 0 ≤ b - ((⌊b⌋ : ℤ) : ℚ) := by have := Int.floor_le b; linarith
  have hloA_le_hiA :
      s.getD (⌊a⌋).toNat 0 ≤ s.getD (min ((⌊a⌋).toNat + 1) (n - 1)) 0 := by
    apply sorted_getD_mono 0 hs (by omega) (by omega)
  have hloB_le_hiB :
      s.getD (⌊b⌋).toNat 0 ≤ s.getD (min ((⌊b⌋).toNat + 1) (n - 1)) 0 := by
    apply sorted_getD_mono 0 hs (by omega) (by omega)
  rcases eq_or_lt_of_le hiab with heq | hlt
  · rw [heq]
    nlinarith [hloB_le_hiB, hab]
  · have h1 : s.getD (⌊a⌋).toNat 0
        + (a - ((⌊a⌋ : ℤ) : ℚ))
          * (s.getD (min ((⌊a⌋).toNat + 1) (n - 1)) 0 - s.getD (⌊a⌋).toNat 0)
        ≤ s.getD (min ((⌊a⌋).toNat + 1) (n - 1)) 0 := by
      nlinarith [hloA_le_hiA, hta0, hta1]
    have h2 : s.getD (min ((⌊a⌋).toNat + 1) (n - 1)) 0 ≤ s.getD (⌊b⌋).toNat 0 := by
      apply sorted_getD_mono 0 hs (by omega) (by omega)
    have h3 : s.getD (⌊b⌋).toNat 0 ≤ s.getD (⌊b⌋).toNat 0
        + (b - ((⌊b⌋ : ℤ) : ℚ))
          * (s.getD (min ((⌊b⌋).toNat + 1) (n - 1)) 0 - s.getD (⌊b⌋).toNat 0) := by
      nlinarith [hloB_le_hiB, htb0]
    linarith

theorem medianQ_eq_interp (xs : List ℚ) (hne : xs ≠ []) :
    medianQ xs = interpQuantile (sortQ xs) (1 / 2) := by
  have hn : 0 < (sortQ xs).length := by
    rw [sortQ_length]; exact List.length_pos.mpr hne
  unfold medianQ interpQuantile
  set s := sortQ xs with hs
  set n := s.length with hnn
  rcases Nat.even_or_odd n with he | ho
  · obtain ⟨m, hm⟩ : ∃ m, n = 2 * m + 2 := by
      rcases he with ⟨k, hk⟩; exact ⟨k - 1, by omega⟩
    have hval : (1 / 2 : ℚ) * ((n : ℚ) - 1) = (m : ℚ) + 1 / 2 := by
      rw [hm]; push_cast; ring
    have hfl : ⌊(1 / 2 : ℚ) * ((n : ℚ) - 1)⌋ = (m : ℤ) := by
      rw [hval, Int.floor_eq_iff]
      constructor
      · push_cast; linarith
      · push_cast; linarith
    rw [if_neg (by omega), hfl, hval]
    have h1 : ((m : ℤ)).toNat = m := by omega
    rw [h1]
    have h2 : min (m + 1) (n - 1) = m + 1 := by omega
    rw [h2]
    have h3 : n / 2 = m + 1 := by omega
    rw [h3]
    have h4 : m + 1 - 1 = m := by omega
    rw [h4]
    push_cast
    ring
  · obtain ⟨m, hm⟩ := ho
    have hval : (1 / 2 : ℚ) * ((n : ℚ) - 1) = (m : ℚ) := by
      rw [hm]; push_cast; ring
    have hfl : ⌊(1 / 2 : ℚ) * ((n : ℚ) - 1)⌋ = (m : ℤ) := by
      rw [hval, Int.floor_natCast]
    rw [if_pos (by omega), hfl, hval]
    have h1 : ((m : ℤ)).toNat = m := by omega
    rw [h1]
    have h3 : n / 2 = m := by omega
    rw [h3]
    push_cast
    ring
theorem reshapeRows_nil {α : Type} : reshapeRows ([] : List α) = [] := by
  rw [reshapeRows]

theorem reshapeRows_cons {α : Type} (a : α) (rest : List α) :
    reshapeRows (a :: rest)
      = ((a :: rest).take 5) :: reshapeRows ((a :: rest).drop 5) := by
  rw [reshapeRows]

theorem reshapeRows_of_ne_nil {α : Type} (l : List α) (h : l ≠ []) :
    reshapeRows l = l.take 5 :: reshapeRows (l.drop 5) := by
  cases l with
  | nil => exact absurd rfl h
  | cons a rest => exact reshapeRows_cons a rest

theorem reshapeRows_take {α : Type} (k : ℕ) (l : List α) (h : 5 * k ≤ l.length) :
    reshapeRows (l.take (5 * k))
      = (List.range k).map (fun j => (l.drop (5 * j)).take 5) := by
  induction k generalizing l with
  | zero => simp [reshapeRows_nil]
  | succ k ih =>
    have h5 : 5 * (k + 1) = 5 + 5 * k := by ring
    have hlen : (l.take (5 * (k + 1))).length = 5 * (k + 1) := by
      rw [List.length_take]; omega
    have hne : l.take (5 * (k + 1)) ≠ [] := by
      intro hnil; rw [hnil] at hlen; simp at hlen
    rw [reshapeRows_of_ne_nil _ hne]
    have htake : (l.take (5 * (k + 1))).take 5 = l.take 5 := by
      rw [List.take_take]; congr 1; omega
    have h56 : 5 * (k + 1) - 5 = 5 * k := by omega
    have hdrop : (l.take (5 * (k + 1))).drop 5 = (l.drop 5).take (5 * k) := by
      rw [List.drop_take, h56]
    have hlen5 : 5 * k ≤ (l.drop 5).length := by
      rw [List.length_drop]; omega
    rw [htake, hdrop, ih (l.drop 5) hlen5]
    rw [List.range_succ_eq_map]
    simp only [List.map_cons, List.map_map]
    have hfun : (fun j => List.take 5 (List.drop (5 * j) (List.drop 5 l)))
          = ((fun j => List.take 5 (List.drop (5 * j) l)) ∘ Nat.succ) := by
        funext j
        show List.take 5 (List.drop (5 * j) (List.drop 5 l))
            = List.take 5 (List.drop (5 * (j + 1)) l)
        rw [List.drop_drop]
        have h55 : 5 + 5 * j = 5 * (j + 1) := by omega
        rw [h55]
    rw [hfun]
    simp

theorem drop_take_eq_getD {α : Type} (d : α) (l : List α) (a k : ℕ)
    (h : a + k ≤ l.length) :
    (l.drop a).take k = (List.range k).map (fun j => l.getD (a + j) d) := by
  apply List.ext_getElem
  · simp only [List.length_take, List.length_drop, List.length_map,
      List.length_range]
    omega
  · intro n h1 h2
    have hn : n < k := by
      simp only [List.length_take, List.length_drop] at h1; omega
    have han : a + n < l.length := by omega
    rw [List.getElem_take, List.getElem_drop]
    simp only [List.getElem_map, List.getElem_range]
    rw [List.getD_eq_getElem l d han]

theorem window_eq_specWindow (vals : List Val) (ws i : ℕ) (hws : ws ≤ i)
    (hi : i < vals.length) :
    (vals.drop (i - ws)).take ws = specWindow vals ws i := by
  unfold specWindow
  have h : (i - ws) + ws ≤ vals.length := by omega
  exact drop_take_eq_getD none vals (i - ws) ws h

theorem trend_loop_eq_H (fitter : List Val → FitResult) (sqrt : ℚ → ℚ)
    (dates : List ℕ) (vals : List Val) (ref : Val) (ws : ℕ) (abs : Bool) :
    ∀ (n i : ℕ), vals.length - i ≤ n → ws ≤ i →
      (List.range' i ((vals.length - i + 4) / 5) 5).filterMap
        (Histogramm.timelineStep fitter sqrt dates vals ref ws abs)
      = specTrendFromH fitter sqrt dates vals ref ws abs i := by
  intro n
  induction n with
  | zero =>
    intro i hle hws
    have hni : ¬ i < vals.length := by omega
    have hc : (vals.length - i + 4) / 5 = 0 := by omega
    rw [hc]
    rw [specTrendFromH, dif_neg hni]
    simp
  | succ n ih =>
    intro i hle hws
    by_cases hi : i < vals.length
    · have hc : (vals.length - i + 4) / 5
          = ((vals.length - (i + 5) + 4) / 5) + 1 := by omega
      rw [hc, List.range'_succ, List.filterMap_cons]
      have hrec := ih (i + 5) (by omega) (by omega)
      have hwin := window_eq_specWindow vals ws i hws hi
      have hstep : Histogramm.timelineStep fitter sqrt dates vals ref ws abs i
          = (if (Histogramm.get_robust_sigma_and_mu fitter (specWindow vals ws i)
                  false abs).sigma_equiv = none then none
             else some (dates.getD i 0,
               Histogramm.sigma_stab (Histogramm.get_robust_sigma_and_mu fitter
                 (specWindow vals ws i) false abs) ref,
               Histogramm.mu_stab sqrt (Histogramm.get_robust_sigma_and_mu fitter
                 (specWindow vals ws i) false abs).data_used ref 2)) := by
        unfold Histogramm.timelineStep
        rw [hwin]
      rw [specTrendFromH, dif_pos hi, hstep]
      by_cases hres : (Histogramm.get_robust_sigma_and_mu fitter
          (specWindow vals ws i) false abs).sigma_equiv = none
      · rw [if_pos hres, if_pos hres]
        exact hrec
      · rw [if_neg hres, if_neg hres]
        rw [hrec]
    · have hni : ¬ i < vals.length := hi
      have hc : (vals.length - i + 4) / 5 = 0 := by omega
      rw [hc]
      rw [specTrendFromH, dif_neg hni]
      simp

theorem trend_loop_eq_T (fitter : List ℚ → FitResult) (sqrt : ℚ → ℚ)
    (dates : List ℕ) (vals : List Val) (ref : Val) (ws : ℕ) (abs : Bool) :
    ∀ (n i : ℕ), vals.length - i ≤ n → ws ≤ i →
      Test55.collectSteps
        (Test55.timelineStep fitter sqrt dates vals ref ws abs)
        (List.range' i ((vals.length - i + 4) / 5) 5)
      = specTrendFromT fitter sqrt dates vals ref ws abs i := by
  intro n
  induction n with
  | zero =>
    intro i hle hws
    have hni : ¬ i < vals.length := by omega
    have hc : (vals.length - i + 4) / 5 = 0 := by omega
    rw [hc]
    rw [specTrendFromT, dif_neg hni]
    rfl
  | succ n ih =>
    intro i hle hws
    by_cases hi : i < vals.length
    · have hc : (vals.length - i + 4) / 5
          = ((vals.length - (i + 5) + 4) / 5) + 1 := by omega
      rw [hc, List.range'_succ]
      have hrec := ih (i + 5) (by omega) (by omega)
      have hwin := window_eq_specWindow vals ws i hws hi
      have hstep : Test55.timelineStep fitter sqrt dates vals ref ws abs i
          = (match (Test55.get_robust_sigma_and_mu fitter (specWindow vals ws i)
                  false abs).data_used with
             | none => Except.error "KeyError"
             | some plot_data =>
               if (Test55.get_robust_sigma_and_mu fitter (specWindow vals ws i)
                     false abs).sigma_equiv = none then Except.ok none
               else
                 Except.ok (some (dates.getD i 0,
                   Test55.sigma_stab (Test55.get_robust_sigma_and_mu fitter
                     (specWindow vals ws i) false abs) ref,
                   Test55.mu_stab sqrt plot_data ref 2))) := by
        unfold Test55.timelineStep
        rw [hwin]
      rw [Test55.collectSteps]
      rw [specTrendFromT, dif_pos hi]
      cases hdu : (Test55.get_robust_sigma_and_mu fitter (specWindow vals ws i)
          false abs).data_used with
      | none =>
        have hstep2 : Test55.timelineStep fitter sqrt dates vals ref ws abs i
            = Except.error "KeyError" := by
          rw [hstep, hdu]
        rw [hstep2]
        rfl
      | some pd =>
        have hstep2 : Test55.timelineStep fitter sqrt dates vals ref ws abs i
            = (if (Test55.get_robust_sigma_and_mu fitter (specWindow vals ws i)
                    false abs).sigma_equiv = none then Except.ok none
               else
                 Except.ok (some (dates.getD i 0,
                   Test55.sigma_stab (Test55.get_robust_sigma_and_mu fitter
                     (specWindow vals ws i) false abs) ref,
                   Test55.mu_stab sqrt pd ref 2))) := by
          rw [hstep, hdu]
        rw [hstep2]
        rw [if_neg (show (some pd : Option (List ℚ)) = none → False from
          fun h0 => by cases h0)]
        by_cases hres : (Test55.get_robust_sigma_and_mu fitter
            (specWindow vals ws i) false abs).sigma_equiv = none
        · rw [if_pos hres, if_pos hres]
          exact hrec
        · rw [if_neg hres, if_neg hres, hrec]
          cases specTrendFromT fitter sqrt dates vals ref ws abs (i + 5) with
          | error e => rfl
          | ok l => rfl
    · have hni : ¬ i < vals.length := hi
      have hc : (vals.length - i + 4) / 5 = 0 := by omega
      rw [hc]
      rw [specTrendFromT, dif_neg hni]
      rfl

/-- Claim C9, as stated, is false for `test55.py`: its loop reads
`res['data_used']` before the `np.isnan(res['sigma_equiv'])` check, and
on a window that is empty after NaN filtering the estimator's dict has no
`data_used` key, so the build aborts with a KeyError instead of silently
skipping the undefined window.  Concretely, with window_size 1 the window
over the NaN measurement raises, and the result is not the skip-described
series. -/
theorem C9_counterexample :
    Test55.plot_timeline_analysis fitter0 id [(1, none), (2, some 1)]
        (some 1) 1 false = Except.error "KeyError" ∧
    (Except.error "KeyError" : Except String (List (ℕ × Val × Val)))
      ≠ Except.ok (specBuildTrend fitter0 id [(1, none), (2, some 1)]
          (some 1) 1 false) := by
  constructor
  · unfold Test55.plot_timeline_analysis
    rw [List.mergeSort_of_sorted (by decide)]
    rfl
  · intro h
    cases h

/-- Claim C9 amended: `histogramm.py`'s Rolling Window Trend Builder
matches the claim's description exactly — it iterates the current index
from `window_size` to the series end by the step 5, takes the trailing
`window_size` measurements ending at (and excluding) the current index,
computes a fast-mode estimate and stability indices, and appends a
TimelinePoint keyed by the timestamp at the current index if and only if
the window's `sigma_equiv` is defined, silently skipping undefined
windows with no gap entry.  `test55.py`'s builder runs the same loop but
reads `res['data_used']` before the NaN check, so a window that is empty
after NaN filtering aborts the whole build with a KeyError rather than
being skipped; every other iteration behaves as the description says.
Stated as equalities with the spec-worded recursions `specBuildTrendH`
and `specBuildTrendT`. -/
theorem C9_amended (fitter : List ℚ → FitResult)
    (fitterV : List Val → FitResult) (sqrt : ℚ → ℚ)
    (series : List (ℕ × Val)) (ref : Val) (ws : ℕ) (abs : Bool) :
    Histogramm.plot_timeline_analysis fitterV sqrt series ref ws abs
      = specBuildTrendH fitterV sqrt series ref ws abs ∧
    Test55.plot_timeline_analysis fitter sqrt series ref ws abs
      = specBuildTrendT fitter sqrt series ref ws abs := by
  constructor
  · unfold Histogramm.plot_timeline_analysis specBuildTrendH
    exact trend_loop_eq_H fitterV sqrt _ _ ref ws abs
      ((series.mergeSort (fun a b => decide (a.1 ≤ b.1))).map Prod.snd).length
      ws (by omega) (le_refl ws)
  · unfold Test55.plot_timeline_analysis specBuildTrendT
    exact trend_loop_eq_T fitter sqrt _ _ ref ws abs
      ((series.mergeSort (fun a b => decide (a.1 ≤ b.1))).map Prod.snd).length
      ws (by omega) (le_refl ws)

theorem range'_pairwise_lt : ∀ (s n : ℕ), List.Pairwise (· < ·) (List.range' s n 5) := by
  intro s n
  induction n generalizing s with
  | zero => simp
  | succ n ih =>
    rw [List.range'_succ, List.pairwise_cons]
    refine ⟨?_, ih (s + 5)⟩
    intro x hx
    obtain ⟨t, ht, rfl⟩ := List.mem_range'.mp hx
    omega

theorem pairwise_fst_filterMap (dates : List ℕ)
    (hsd : List.Pairwise (· ≤ ·) dates)
    (f : ℕ → Option (ℕ × Val × Val)) (L : ℕ) (hL : L ≤ dates.length)
    (hf : ∀ i x, f i = some x → x.1 = dates.getD i 0)
    (idxs : List ℕ) (hp : List.Pairwise (· < ·) idxs)
    (hb : ∀ i ∈ idxs, i < L) :
    List.Pairwise (fun a b : ℕ × Val × Val => a.1 ≤ b.1) (idxs.filterMap f) := by
  induction idxs with
  | nil => simp
  | cons a t ih =>
    rw [List.filterMap_cons]
    have hat := (List.pairwise_cons.mp hp).1
    have hpt := (List.pairwise_cons.mp hp).2
    have hbt : ∀ i ∈ t, i < L := fun i hi => hb i (List.mem_cons_of_mem a hi)
    cases hfa : f a with
    | none => exact ih hpt hbt
    | some x =>
      rw [List.pairwise_cons]
      constructor
      · intro y hy
        obtain ⟨j, hj, hfj⟩ := List.mem_filterMap.mp hy
        have hxa : x.1 = dates.getD a 0 := hf a x hfa
        have hyj : y.1 = dates.getD j 0 := hf j y hfj
        rw [hxa, hyj]
        exact sorted_getD_mono 0 hsd (le_of_lt (hat j hj))
          (lt_of_lt_of_le (hbt j hj) hL)
      · exact ih hpt hbt

theorem mem_okList_collectSteps {α : Type}
    (step : ℕ → Except String (Option α)) :
    ∀ (idxs : List ℕ) (y : α), y ∈ okList (Test55.collectSteps step idxs) →
      ∃ j ∈ idxs, step j = Except.ok (some y) := by
  intro idxs
  induction idxs with
  | nil =>
    intro y hy
    simp [Test55.collectSteps, okList] at hy
  | cons a t ih =>
    intro y hy
    rw [Test55.collectSteps] at hy
    cases ha : step a with
    | error e =>
      rw [ha] at hy
      simp [okList] at hy
    | ok o =>
      rw [ha] at hy
      cases o with
      | none =>
        obtain ⟨j, hj, hstep⟩ := ih y hy
        exact ⟨j, List.mem_cons_of_mem a hj, hstep⟩
      | some p =>
        cases hc : Test55.collectSteps step t with
        | error e =>
          rw [hc] at hy
          simp [okList] at hy
        | ok l =>
          rw [hc] at hy
          simp only [okList] at hy
          rcases List.mem_cons.mp hy with rfl | hyl
          · exact ⟨a, List.mem_cons_self a t, ha⟩
          · have hyl2 : y ∈ okList (Test55.collectSteps step t) := by
              rw [hc]
              exact hyl
            obtain ⟨j, hj, hstep⟩ := ih y hyl2
            exact ⟨j, List.mem_cons_of_mem a hj, hstep⟩

theorem pairwise_fst_collectSteps (dates : List ℕ)
    (hsd : List.Pairwise (· ≤ ·) dates)
    (step : ℕ → Except String (Option (ℕ × Val × Val))) (L : ℕ)
    (hL : L ≤ dates.length)
    (hf : ∀ i x, step i = Except.ok (some x) → x.1 = dates.getD i 0)
    (idxs : List ℕ) (hp : List.Pairwise (· < ·) idxs)
    (hb : ∀ i ∈ idxs, i < L) :
    List.Pairwise (fun a b : ℕ × Val × Val => a.1 ≤ b.1)
      (okList (Test55.collectSteps step idxs)) := by
  induction idxs with
  | nil => simp [Test55.collectSteps, okList]
  | cons a t ih =>
    rw [Test55.collectSteps]
    have hat := (List.pairwise_cons.mp hp).1
    have hpt := (List.pairwise_cons.mp hp).2
    have hbt : ∀ i ∈ t, i < L := fun i hi => hb i (List.mem_cons_of_mem a hi)
    cases ha : step a with
    | error e => simp [okList]
    | ok o =>
      cases o with
      | none => exact ih hpt hbt
      | some p =>
        cases hc : Test55.collectSteps step t with
        | error e => simp [okList]
        | ok l =>
          have hpl : List.Pairwise (fun x y : ℕ × Val × Val => x.1 ≤ y.1) l := by
            have := ih hpt hbt
            rw [hc] at this
            exact this
          simp only [okList]
          rw [List.pairwise_cons]
          constructor
          · intro y hy
            have hyl : y ∈ okList (Test55.collectSteps step t) := by
              rw [hc]
              exact hy
            obtain ⟨j, hj, hstep⟩ := mem_okList_collectSteps step t y hyl
            have hxa := hf a p ha
            have hyj := hf j y hstep
            rw [hxa, hyj]
            exact sorted_getD_mono 0 hsd (le_of_lt (hat j hj))
              (lt_of_lt_of_le (hbt j hj) hL)
          · exact hpl

/-- Claim C10: both Rolling Window Trend Builders sort their input series
ascending by date themselves before windowing, so for every input — even
one not pre-sorted by the caller — the timestamps of the produced Trend
Series are non-decreasing, and the three per-point outputs (timestamps,
sigma-STAB values, mu-STAB values) have equal length.  For `test55.py`,
whose builder aborts with a KeyError on a window that is empty after NaN
filtering (see the C9 theorems), this covers every series it actually
returns (`okList` is that series, empty when the build raised). -/
theorem trend_dates_sorted (fitter : List ℚ → FitResult)
    (fitterV : List Val → FitResult) (sqrt : ℚ → ℚ)
    (series : List (ℕ × Val)) (ref : Val) (ws : ℕ) (abs : Bool) :
    (List.Pairwise (· ≤ ·)
      ((Histogramm.plot_timeline_analysis fitterV sqrt series ref ws abs).map
        Prod.fst) ∧
    ((Histogramm.plot_timeline_analysis fitterV sqrt series ref ws abs).map
        Prod.fst).length
      = ((Histogramm.plot_timeline_analysis fitterV sqrt series ref ws abs).map
          (fun p => p.2.1)).length ∧
    ((Histogramm.plot_timeline_analysis fitterV sqrt series ref ws abs).map
        Prod.fst).length
      = ((Histogramm.plot_timeline_analysis fitterV sqrt series ref ws abs).map
          (fun p => p.2.2)).length) ∧
    (List.Pairwise (· ≤ ·)
      ((okList (Test55.plot_timeline_analysis fitter sqrt series ref ws abs)).map
        Prod.fst) ∧
    ((okList (Test55.plot_timeline_analysis fitter sqrt series ref ws abs)).map
        Prod.fst).length
      = ((okList (Test55.plot_timeline_analysis fitter sqrt series ref ws abs)).map
          (fun p => p.2.1)).length ∧
    ((okList (Test55.plot_timeline_analysis fitter sqrt series ref ws abs)).map
        Prod.fst).length
      = ((okList (Test55.plot_timeline_analysis fitter sqrt series ref ws abs)).map
          (fun p => p.2.2)).length) := by
  have hdf := @List.sorted_mergeSort (ℕ × Val)
    (fun a b : ℕ × Val => decide (a.1 ≤ b.1))
    (fun a b c hab hbc => by
      simp only [decide_eq_true_eq] at *
      omega)
    (fun a b => by simpa using Nat.le_total a.1 b.1) series
  have hsd : List.Pairwise (· ≤ ·)
      ((series.mergeSort (fun a b => decide (a.1 ≤ b.1))).map Prod.fst) :=
    List.Pairwise.map Prod.fst (fun a b h => by simpa using h) hdf
  constructor
  · refine ⟨?_, by simp, by simp⟩
    unfold Histogramm.plot_timeline_analysis
    rw [List.pairwise_map]
    apply pairwise_fst_filterMap _ hsd _
      ((series.mergeSort (fun a b => decide (a.1 ≤ b.1))).map Prod.snd).length
      (by simp)
    · intro i x hx
      unfold Histogramm.timelineStep at hx
      simp only [] at hx
      split at hx
      · simp at hx
      · cases hx
        rfl
    · exact range'_pairwise_lt _ _
    · intro i hi
      obtain ⟨t, ht, rfl⟩ := List.mem_range'.mp hi
      omega
  · refine ⟨?_, by simp, by simp⟩
    unfold Test55.plot_timeline_analysis
    rw [List.pairwise_map]
    apply pairwise_fst_collectSteps _ hsd _
      ((series.mergeSort (fun a b => decide (a.1 ≤ b.1))).map Prod.snd).length
      (by simp)
    · intro i x hx
      unfold Test55.timelineStep at hx
      simp only [] at hx
      split at hx
      · simp at hx
      · split at hx
        · simp at hx
        · cases hx
          rfl
    · exact range'_pairwise_lt _ _
    · intro i hi
      obtain ⟨t, ht, rfl⟩ := List.mem_range'.mp hi
      omega

/-- Claim C1, as stated, is false: with reference sigma 0, `test55.py`
computes `sigma_stab = ... if hist_sigma_ref else 0`, so a defined, positive
`sigma_equiv` is silently coerced to the spurious finite index 0, and
`mu_stab` likewise — not an undefined value. -/
theorem C1_counterexample :
    Test55.sigma_stab { sigma_equiv := some 1 } (some 0) = some 0 ∧
    Test55.mu_stab id [1, 2, 3, 4, 5, 6, 7, 8, 9, 10] (some 0) 1 = some 0 ∧
    (some (0 : ℚ) : Val) ≠ (none : Val) := by
  refine ⟨by decide, by decide, by decide⟩

theorem vdiv_none_right (x : Val) : vdiv x none = none := by
  cases x <;> rfl

theorem vdiv_some_zero (x : Val) : vdiv x (some 0) = none := by
  cases x <;> simp [vdiv]

/-- Claim C1 amended: neither script crashes on a zero or NaN reference,
but neither propagates an explicit undefined value in every such case
either.  In `test55.py` a NaN reference propagates NaN through
`sigma_stab`, and through `mu_stab` whenever more than one complete
subgroup exists, while a zero reference is coerced to the spurious finite
index 0 in both `sigma_stab` and `mu_stab`
(`... if hist_sigma_ref else 0`).  In `histogramm.py` the divisions are
unguarded: a NaN reference propagates NaN, and a zero reference produces
a non-finite value (inf/nan, the model's undefined sentinel) for
`sigma_stab` and for `mu_stab` whenever more than one complete subgroup
exists. -/
theorem C1_amended (res : Test55.RobustResult)
    (resH : Histogramm.RobustResult) (sqrt : ℚ → ℚ) (pd : List ℚ)
    (pdH : List Val) (hk : 1 < pd.length / 5) (hkH : 1 < pdH.length / 5) :
    (Test55.sigma_stab res none = none ∧
     Test55.sigma_stab res (some 0) = some 0 ∧
     Test55.mu_stab sqrt pd none 1 = none ∧
     Test55.mu_stab sqrt pd (some 0) 1 = some 0) ∧
    (Histogramm.sigma_stab resH none = none ∧
     Histogramm.sigma_stab resH (some 0) = none ∧
     Histogramm.mu_stab sqrt pdH none 1 = none ∧
     Histogramm.mu_stab sqrt pdH (some 0) 1 = none) := by
  constructor
  · refine ⟨?_, ?_, ?_, ?_⟩
    · unfold Test55.sigma_stab
      cases hs : res.sigma_equiv <;> simp [truthy, vdiv, hs]
    · unfold Test55.sigma_stab
      simp [truthy]
    · unfold Test55.mu_stab
      rw [if_pos hk]
      simp [truthy, vdiv]
    · unfold Test55.mu_stab
      rw [if_pos hk]
      simp [truthy]
  · refine ⟨?_, ?_, ?_, ?_⟩
    · exact vdiv_none_right _
    · exact vdiv_some_zero _
    · unfold Histogramm.mu_stab
      rw [if_pos hkH]
      simp only []
      exact vdiv_none_right _
    · unfold Histogramm.mu_stab
      rw [if_pos hkH]
      simp only []
      exact vdiv_some_zero _

theorem C1_amended_witness :
    1 < ([1, 2, 3, 4, 5, 6, 7, 8, 9, 10] : List ℚ).length / 5 ∧
    1 < (([1, 2, 3, 4, 5, 6, 7, 8, 9, 10] : List ℚ).map some).length / 5 ∧
    ((Test55.sigma_stab { sigma_equiv := some 1 } none = none ∧
      Test55.sigma_stab { sigma_equiv := some 1 } (some 0) = some 0 ∧
      Test55.mu_stab id [1, 2, 3, 4, 5, 6, 7, 8, 9, 10] none 1 = none ∧
      Test55.mu_stab id [1, 2, 3, 4, 5, 6, 7, 8, 9, 10] (some 0) 1 = some 0) ∧
     (Histogramm.sigma_stab
        { sigma_equiv := some 1, median := some 1, lsl := some 0,
          usl := some 2, data_used := [] } none = none ∧
      Histogramm.sigma_stab
        { sigma_equiv := some 1, median := some 1, lsl := some 0,
          usl := some 2, data_used := [] } (some 0) = none ∧
      Histogramm.mu_stab id (([1, 2, 3, 4, 5, 6, 7, 8, 9, 10] : List ℚ).map some)
        none 1 = none ∧
      Histogramm.mu_stab id (([1, 2, 3, 4, 5, 6, 7, 8, 9, 10] : List ℚ).map some)
        (some 0) 1 = none)) :=
  ⟨by decide, by decide,
   C1_amended { sigma_equiv := some 1 }
     { sigma_equiv := some 1, median := some 1, lsl := some 0,
       usl := some 2, data_used := [] }
     id [1, 2, 3, 4, 5, 6, 7, 8, 9, 10]
     (([1, 2, 3, 4, 5, 6, 7, 8, 9, 10] : List ℚ).map some)
     (by decide) (by decide)⟩

/-- Claim C2, as stated, is false for `histogramm.py`: its estimator has no
minimum-length fallback, so on a length-5 sample exact mode still invokes
the distribution fitter and returns a fitted result, not the fast-mode
empirical result. -/
theorem C2_counterexample :
    Histogramm.get_robust_sigma_and_mu fitterV0
        [some 1, some 2, some 3, some 4, some 5] true false
      ≠ Histogramm.get_robust_sigma_and_mu fitterV0
        [some 1, some 2, some 3, some 4, some 5] false false := by
  intro h
  have hname := congrArg Histogramm.RobustResult.dist_name h
  have h1 : (Histogramm.get_robust_sigma_and_mu fitterV0
      [some 1, some 2, some 3, some 4, some 5] true false).dist_name
      = some "norm" := by decide
  have h2 : (Histogramm.get_robust_sigma_and_mu fitterV0
      [some 1, some 2, some 3, some 4, some 5] false false).dist_name
      = some "empirical" := by decide
  rw [h1, h2] at hname
  exact absurd hname (by decide)

/-- Claim C2 amended: in `test55.py`, whose estimator guards the fit by
`len(data) > 10`, any sample with at most 10 values (after the NaN filter
it can only shrink) takes the same fast path in exact mode as in fast
mode, so the two modes return exactly the same result without raising;
`histogramm.py`'s estimator lacks that guard and fits regardless. -/
theorem C2_amended (fitter : List ℚ → FitResult) (abs : Bool)
    (data : List Val) (h : data.length ≤ 10) :
    Test55.get_robust_sigma_and_mu fitter data true abs
      = Test55.get_robust_sigma_and_mu fitter data false abs := by
  unfold Test55.get_robust_sigma_and_mu
  simp only []
  have hlen : ((if abs then data.map vabs else data).filterMap id).length ≤ 10 := by
    calc ((if abs then data.map vabs else data).filterMap id).length
        ≤ (if abs then data.map vabs else data).length :=
          List.length_filterMap_le _ _
      _ ≤ data.length := by cases abs <;> simp
      _ ≤ 10 := h
  simp only [Bool.false_eq_true, false_and, if_false]
  rw [if_neg (by rintro ⟨-, hgt⟩; omega)]

theorem C2_amended_witness :
    ([some 1, some 2, some 3, some 4, some 5] : List Val).length ≤ 10 ∧
    Test55.get_robust_sigma_and_mu fitter0
        [some 1, some 2, some 3, some 4, some 5] true false
      = Test55.get_robust_sigma_and_mu fitter0
        [some 1, some 2, some 3, some 4, some 5] false false :=
  ⟨by decide,
   C2_amended fitter0 false [some 1, some 2, some 3, some 4, some 5]
     (by decide)⟩

/-- Claim C3, as stated, is false: on a sample that is empty after
filtering, `test55.py` returns only `{'sigma_equiv': np.nan}` — the
`median`, `lsl`, `usl` keys are absent rather than set to NaN, and no
source field is set; `histogramm.py`'s fast branch on an empty sample sets
the numeric fields to NaN but also records no source. -/
theorem C3_counterexample :
    (Test55.get_robust_sigma_and_mu fitter0 [none] false false).median = none ∧
    (Test55.get_robust_sigma_and_mu fitter0 [none] false false).lsl = none ∧
    (Test55.get_robust_sigma_and_mu fitter0 [none] false false).dist_name = none ∧
    (Histogramm.get_robust_sigma_and_mu fitterV0 [] false false).dist_name = none := by
  refine ⟨by decide, by decide, by decide, by decide⟩

/-- Claim C3 amended: on a sample that is empty after filtering, the
estimator returns without error; `test55.py` (in either mode — with nothing
left the fit guard fails too) returns the dict holding only
`sigma_equiv = NaN`, and `histogramm.py`'s fast mode on an empty sample
returns NaN for all four numeric fields; neither records a source. -/
theorem C3_amended (fitter : List ℚ → FitResult) (fitterV : List Val → FitResult)
    (fd abs : Bool) (data : List Val) (hall : data.all (fun v => v.isNone)) :
    Test55.get_robust_sigma_and_mu fitter data fd abs = { sigma_equiv := none } ∧
    Histogramm.get_robust_sigma_and_mu fitterV [] false abs
      = { sigma_equiv := none, median := none, lsl := none, usl := none,
          data_used := [] } := by
  constructor
  · unfold Test55.get_robust_sigma_and_mu
    simp only []
    have h0 : data.filterMap id = [] := (filterMap_id_eq_nil data).mpr hall
    have hxs : ((if abs then data.map vabs else data).filterMap id) = [] := by
      cases abs
      · rw [if_neg (by decide)]; exact h0
      · rw [if_pos rfl, filterMap_id_map_vabs, h0]; rfl
    rw [hxs]
    simp
  · unfold Histogramm.get_robust_sigma_and_mu
    cases abs <;> rfl

theorem C3_amended_witness :
    ([none, none] : List Val).all (fun v => v.isNone) ∧
    (Test55.get_robust_sigma_and_mu fitter0 [none, none] true true
        = { sigma_equiv := none } ∧
     Histogramm.get_robust_sigma_and_mu fitterV0 [] false true
        = { sigma_equiv := none, median := none, lsl := none, usl := none,
            data_used := [] }) :=
  ⟨by decide, C3_amended fitter0 fitterV0 true true [none, none] (by decide)⟩

/-- Claim C4, as stated, is false for `histogramm.py`: its estimator never
drops non-finite values, so the returned `data_used` still depends on the
NaN elements of the input. -/
theorem C4_counterexample :
    (Histogramm.get_robust_sigma_and_mu fitterV0 [some 1, none] false false).data_used
      ≠ (Histogramm.get_robust_sigma_and_mu fitterV0 [some 1] false false).data_used := by
  decide

/-- Claim C4 amended: `test55.py`'s estimator drops the NaN values first
(`data[~np.isnan(data)]`), in both exact and fast mode, so its whole result
— estimate and `data_used` alike — depends only on the finite elements of
the input: pre-filtering the input to its finite elements changes nothing.
`histogramm.py` keeps NaN values in `data_used` (its quantiles still skip
them via `np.nanquantile`). -/
theorem C4_amended (fitter : List ℚ → FitResult) (fd abs : Bool)
    (data : List Val) :
    Test55.get_robust_sigma_and_mu fitter data fd abs
      = Test55.get_robust_sigma_and_mu fitter
          (data.filter (fun v => v.isSome)) fd abs := by
  unfold Test55.get_robust_sigma_and_mu
  simp only []
  have hxs : ((if abs then (data.filter (fun v => v.isSome)).map vabs
        else data.filter (fun v => v.isSome)).filterMap id)
      = ((if abs then data.map vabs else data).filterMap id) := by
    cases abs
    · rw [if_neg (by decide), if_neg (by decide), filterMap_id_filter_isSome]
    · rw [if_pos rfl, if_pos rfl, filterMap_id_map_vabs, filterMap_id_map_vabs,
        filterMap_id_filter_isSome]
  rw [hxs]

/-- Claim C8: when the number k of complete subgroups is at or below the
threshold, mu-STAB is set to the defined value 0 by convention rather than
undefined, with threshold k ≤ 1 for the snapshot computation and k ≤ 2 for
the windowed (trend) computation — in both scripts. -/
theorem C8_mu_stab_zero_convention (sqrt : ℚ → ℚ) (pd qd : List ℚ)
    (ref : Val) (h1 : pd.length / 5 ≤ 1) (h2 : qd.length / 5 ≤ 2) :
    Test55.mu_stab sqrt pd ref 1 = some 0 ∧
    Histogramm.mu_stab sqrt (pd.map some) ref 1 = some 0 ∧
    Test55.mu_stab sqrt qd ref 2 = some 0 ∧
    Histogramm.mu_stab sqrt (qd.map some) ref 2 = some 0 := by
  refine ⟨?_, ?_, ?_, ?_⟩
  · unfold Test55.mu_stab; rw [if_neg (by omega)]
  · unfold Histogramm.mu_stab
    rw [if_neg (by simp only [List.length_map]; omega)]
  · unfold Test55.mu_stab; rw [if_neg (by omega)]
  · unfold Histogramm.mu_stab
    rw [if_neg (by simp only [List.length_map]; omega)]

theorem C8_mu_stab_zero_convention_witness :
    ([1, 2, 3, 4, 5] : List ℚ).length / 5 ≤ 1 ∧
    ([1, 2, 3, 4, 5, 6, 7, 8, 9, 10] : List ℚ).length / 5 ≤ 2 ∧
    (Test55.mu_stab id [1, 2, 3, 4, 5] none 1 = some 0 ∧
     Histogramm.mu_stab id (([1, 2, 3, 4, 5] : List ℚ).map some) none 1 = some 0 ∧
     Test55.mu_stab id [1, 2, 3, 4, 5, 6, 7, 8, 9, 10] none 2 = some 0 ∧
     Histogramm.mu_stab id (([1, 2, 3, 4, 5, 6, 7, 8, 9, 10] : List ℚ).map some) none 2
        = some 0) :=
  ⟨by decide, by decide,
   C8_mu_stab_zero_convention id [1, 2, 3, 4, 5]
     [1, 2, 3, 4, 5, 6, 7, 8, 9, 10] none (by decide) (by decide)⟩

theorem grps_medians_eq (pd : List ℚ) :
    (reshapeRows (pd.take (pd.length / 5 * 5))).map medianQ
      = specChunkMedians pd := by
  have h : 5 * (pd.length / 5) ≤ pd.length := by omega
  have h2 : pd.length / 5 * 5 = 5 * (pd.length / 5) := Nat.mul_comm _ _
  rw [h2, reshapeRows_take _ _ h, List.map_map]
  unfold specChunkMedians
  rfl

theorem reshapeRows_map {α β : Type} (f : α → β) (l : List α) :
    reshapeRows (l.map f) = (reshapeRows l).map (List.map f) := by
  induction l using reshapeRows.induct with
  | case1 => rw [List.map_nil, reshapeRows_nil, reshapeRows_nil, List.map_nil]
  | case2 a rest ih =>
    rw [reshapeRows_cons]
    have hne : (a :: rest).map f ≠ [] := by simp
    rw [reshapeRows_of_ne_nil _ hne, List.map_cons]
    congr 1
    · rw [← List.map_cons, ← List.map_take]
    · rw [← List.map_cons, ← List.map_drop]
      exact ih

theorem npStdV_map_some (sqrt : ℚ → ℚ) (l : List ℚ) :
    npStdV sqrt (l.map some) = some (npStd sqrt l) := by
  simp [npStdV]

/-- Claim C7: for every sample with at least the required number of
complete subgroups for its computation — more than 1 for the snapshot
(threshold 1), more than 2 for the windowed computation (threshold 2) —
and a nonzero finite reference sigma, mu-STAB equals the Bessel-corrected
(divisor n−1) standard deviation of the medians of the consecutive
non-overlapping width-5 chunks taken in the sample's existing order
(remainder discarded), divided by the reference, where the right-hand
side `specMuStab` is worded from the spec.  Covered: `test55.py`'s and
`histogramm.py`'s snapshot mu-STAB (threshold 1, including the k = 2
case) and both scripts' windowed mu-STAB (threshold 2). -/
theorem C7_mu_stab_formula (sqrt : ℚ → ℚ) (pd qd : List ℚ) (r : ℚ)
    (hk1 : 1 < pd.length / 5) (hk2 : 2 < qd.length / 5) (hr : r ≠ 0) :
    (Test55.mu_stab sqrt pd (some r) 1 = some (specMuStab sqrt pd r) ∧
     Histogramm.mu_stab sqrt (pd.map some) (some r) 1
       = some (specMuStab sqrt pd r)) ∧
    (Test55.mu_stab sqrt qd (some r) 2 = some (specMuStab sqrt qd r) ∧
     Histogramm.mu_stab sqrt (qd.map some) (some r) 2
       = some (specMuStab sqrt qd r)) := by
  have htr : truthy (some r) = true := by simp [truthy, hr]
  have hT : ∀ (xs : List ℚ) (t : ℕ), t < xs.length / 5 →
      Test55.mu_stab sqrt xs (some r) t = some (specMuStab sqrt xs r) := by
    intro xs t ht
    unfold Test55.mu_stab
    rw [if_pos ht]
    simp only []
    rw [grps_medians_eq, if_pos htr]
    simp only [vdiv]
    rw [if_neg hr]
    rfl
  have hH : ∀ (xs : List ℚ) (t : ℕ), t < xs.length / 5 →
      Histogramm.mu_stab sqrt (xs.map some) (some r) t
        = some (specMuStab sqrt xs r) := by
    intro xs t ht
    unfold Histogramm.mu_stab
    rw [if_pos (by simp only [List.length_map]; omega)]
    simp only []
    have hcast : (xs.map some).take ((xs.map some).length / 5 * 5)
        = (xs.take (xs.length / 5 * 5)).map some := by
      rw [List.length_map, List.map_take]
    rw [hcast, reshapeRows_map, List.map_map]
    have hfun : (npMedianV ∘ List.map some) = (some ∘ medianQ) := by
      funext l
      simp [npMedianV, Function.comp]
    rw [hfun, ← List.map_map, grps_medians_eq, npStdV_map_some]
    simp only [vdiv]
    rw [if_neg hr]
    rfl
  exact ⟨⟨hT pd 1 hk1, hH pd 1 hk1⟩, ⟨hT qd 2 hk2, hH qd 2 hk2⟩⟩

theorem C7_mu_stab_formula_witness :
    1 < ([1, 1, 1, 1, 1, 1, 1, 1, 1, 1] : List ℚ).length / 5 ∧
    2 < ([1, 1, 1, 1, 1, 1, 1, 1, 1, 1, 1, 1, 1, 1, 1] : List ℚ).length / 5 ∧
    (1 : ℚ) ≠ 0 ∧
    ((Test55.mu_stab id [1, 1, 1, 1, 1, 1, 1, 1, 1, 1] (some 1) 1
        = some (specMuStab id [1, 1, 1, 1, 1, 1, 1, 1, 1, 1] 1) ∧
      Histogramm.mu_stab id
        (([1, 1, 1, 1, 1, 1, 1, 1, 1, 1] : List ℚ).map some) (some 1) 1
        = some (specMuStab id [1, 1, 1, 1, 1, 1, 1, 1, 1, 1] 1)) ∧
     (Test55.mu_stab id [1, 1, 1, 1, 1, 1, 1, 1, 1, 1, 1, 1, 1, 1, 1] (some 1) 2
        = some (specMuStab id [1, 1, 1, 1, 1, 1, 1, 1, 1, 1, 1, 1, 1, 1, 1] 1) ∧
      Histogramm.mu_stab id
        (([1, 1, 1, 1, 1, 1, 1, 1, 1, 1, 1, 1, 1, 1, 1] : List ℚ).map some)
        (some 1) 2
        = some (specMuStab id [1, 1, 1, 1, 1, 1, 1, 1, 1, 1, 1, 1, 1, 1, 1] 1))) :=
  ⟨by decide, by decide, by decide,
   C7_mu_stab_formula id [1, 1, 1, 1, 1, 1, 1, 1, 1, 1]
     [1, 1, 1, 1, 1, 1, 1, 1, 1, 1, 1, 1, 1, 1, 1] 1
     (by decide) (by decide) (by decide)⟩

theorem nanquantile_of_ne_nil (d : List Val) (h : d.filterMap id ≠ [])
    (p : ℚ) :
    nanquantile d p = some (interpQuantile (sortQ (d.filterMap id)) p) := by
  unfold nanquantile
  simp only []
  rw [if_neg (by simpa using h)]

theorem nanmedian_of_ne_nil (d : List Val) (h : d.filterMap id ≠ []) :
    nanmedian d = some (medianQ (d.filterMap id)) := by
  unfold nanmedian
  simp only []
  rw [if_neg (by simpa using h)]

/-- Claim C5: for every sample holding at least one finite value, in both
modes, both scripts' estimators return `lower_bound ≤ median ≤ upper_bound`
and `sigma_equiv = (upper_bound - lower_bound) / 6 ≥ 0`.  In exact mode the
bounds are quantiles of the externally fitted distribution, whose quantile
function (`ppf`) is monotone for every probability distribution — stated
here as a hypothesis on the abstract fitting pipeline. -/
theorem C5_ordering_invariant (fitter : List ℚ → FitResult)
    (fitterV : List Val → FitResult)
    (hm : ∀ xs, Monotone (fitter xs).ppf)
    (hmV : ∀ d, Monotone (fitterV d).ppf)
    (fd abs : Bool) (data : List Val)
    (hne : ((if abs then data.map vabs else data).filterMap id) ≠ []) :
    (∃ lo med hi,
      (Test55.get_robust_sigma_and_mu fitter data fd abs).lsl = some lo ∧
      (Test55.get_robust_sigma_and_mu fitter data fd abs).median = some med ∧
      (Test55.get_robust_sigma_and_mu fitter data fd abs).usl = some hi ∧
      lo ≤ med ∧ med ≤ hi ∧
      (Test55.get_robust_sigma_and_mu fitter data fd abs).sigma_equiv
        = some ((hi - lo) / 6) ∧ 0 ≤ (hi - lo) / 6) ∧
    (∃ lo med hi,
      (Histogramm.get_robust_sigma_and_mu fitterV data fd abs).lsl = some lo ∧
      (Histogramm.get_robust_sigma_and_mu fitterV data fd abs).median = some med ∧
      (Histogramm.get_robust_sigma_and_mu fitterV data fd abs).usl = some hi ∧
      lo ≤ med ∧ med ≤ hi ∧
      (Histogramm.get_robust_sigma_and_mu fitterV data fd abs).sigma_equiv
        = some ((hi - lo) / 6) ∧ 0 ≤ (hi - lo) / 6) := by
  constructor
  · unfold Test55.get_robust_sigma_and_mu
    simp only []
    set xs := (if abs then data.map vabs else data).filterMap id with hxs
    have hsorted := sortQ_sorted xs
    have hsne : sortQ xs ≠ [] := by
      intro h0
      apply hne
      have hl := sortQ_length xs
      rw [h0] at hl
      exact List.length_eq_zero.mp hl.symm
    by_cases hfit : fd = true ∧ 10 < xs.length
    · rw [if_pos hfit]
      refine ⟨(fitter xs).ppf (27 / 20000), (fitter xs).ppf (1 / 2),
        (fitter xs).ppf (19973 / 20000), rfl, rfl, rfl,
        hm xs (by norm_num), hm xs (by norm_num), rfl, ?_⟩
      have hmono := hm xs (show (27 / 20000 : ℚ) ≤ 19973 / 20000 by norm_num)
      have h6 : (0 : ℚ) < 6 := by norm_num
      exact div_nonneg (by linarith) (by norm_num)
    · rw [if_neg hfit, if_neg (fun h0 => hne (List.length_eq_zero.mp h0))]
      have hmed := medianQ_eq_interp xs hne
      refine ⟨interpQuantile (sortQ xs) (27 / 20000), medianQ xs,
        interpQuantile (sortQ xs) (19973 / 20000), rfl, rfl, rfl, ?_, ?_, rfl, ?_⟩
      · rw [hmed]
        exact interp_mono hsorted hsne (by norm_num) (by norm_num) (by norm_num)
      · rw [hmed]
        exact interp_mono hsorted hsne (by norm_num) (by norm_num) (by norm_num)
      · have := interp_mono hsorted hsne
          (show (0 : ℚ) ≤ 27 / 20000 by norm_num)
          (show (27 / 20000 : ℚ) ≤ 19973 / 20000 by norm_num)
          (by norm_num)
        exact div_nonneg (by linarith) (by norm_num)
  · unfold Histogramm.get_robust_sigma_and_mu
    simp only []
    set d' := (if abs then data.map vabs else data) with hd'
    have hsorted := sortQ_sorted (d'.filterMap id)
    have hsne : sortQ (d'.filterMap id) ≠ [] := by
      intro h0
      apply hne
      have hl := sortQ_length (d'.filterMap id)
      rw [h0] at hl
      exact List.length_eq_zero.mp hl.symm
    by_cases hfd : fd = true
    · rw [if_pos hfd]
      refine ⟨(fitterV d').ppf (27 / 20000), (fitterV d').ppf (1 / 2),
        (fitterV d').ppf (19973 / 20000), rfl, rfl, rfl,
        hmV d' (by norm_num), hmV d' (by norm_num), rfl, ?_⟩
      have hmono := hmV d' (show (27 / 20000 : ℚ) ≤ 19973 / 20000 by norm_num)
      exact div_nonneg (by linarith) (by norm_num)
    · rw [if_neg hfd]
      have hlen : ¬ d'.length = 0 := by
        intro h0
        apply hne
        rw [List.length_eq_zero.mp h0]
        rfl
      rw [if_neg hlen]
      have hq1 := nanquantile_of_ne_nil d' hne (27 / 20000)
      have hq2 := nanquantile_of_ne_nil d' hne (19973 / 20000)
      have hmd := nanmedian_of_ne_nil d' hne
      have hmed := medianQ_eq_interp (d'.filterMap id) hne
      refine ⟨interpQuantile (sortQ (d'.filterMap id)) (27 / 20000),
        medianQ (d'.filterMap id),
        interpQuantile (sortQ (d'.filterMap id)) (19973 / 20000),
        hq1, hmd, hq2, ?_, ?_, ?_, ?_⟩
      · rw [hmed]
        exact interp_mono hsorted hsne (by norm_num) (by norm_num) (by norm_num)
      · rw [hmed]
        exact interp_mono hsorted hsne (by norm_num) (by norm_num) (by norm_num)
      · rw [hq1, hq2]
        simp [vsub, vdiv]
      · have := interp_mono hsorted hsne
          (show (0 : ℚ) ≤ 27 / 20000 by norm_num)
          (show (27 / 20000 : ℚ) ≤ 19973 / 20000 by norm_num)
          (by norm_num)
        exact div_nonneg (by linarith) (by norm_num)

theorem C5_ordering_invariant_witness :
    ((if false then ([some 1, some 2, some 3] : List Val).map vabs
        else [some 1, some 2, some 3]).filterMap id) ≠ [] ∧
    ((∃ lo med hi,
      (Test55.get_robust_sigma_and_mu fitter0 [some 1, some 2, some 3] true false).lsl = some lo ∧
      (Test55.get_robust_sigma_and_mu fitter0 [some 1, some 2, some 3] true false).median = some med ∧
      (Test55.get_robust_sigma_and_mu fitter0 [some 1, some 2, some 3] true false).usl = some hi ∧
      lo ≤ med ∧ med ≤ hi ∧
      (Test55.get_robust_sigma_and_mu fitter0 [some 1, some 2, some 3] true false).sigma_equiv
        = some ((hi - lo) / 6) ∧ 0 ≤ (hi - lo) / 6) ∧
    (∃ lo med hi,
      (Histogramm.get_robust_sigma_and_mu fitterV0 [some 1, some 2, some 3] true false).lsl = some lo ∧
      (Histogramm.get_robust_sigma_and_mu fitterV0 [some 1, some 2, some 3] true false).median = some med ∧
      (Histogramm.get_robust_sigma_and_mu fitterV0 [some 1, some 2, some 3] true false).usl = some hi ∧
      lo ≤ med ∧ med ≤ hi ∧
      (Histogramm.get_robust_sigma_and_mu fitterV0 [some 1, some 2, some 3] true false).sigma_equiv
        = some ((hi - lo) / 6) ∧ 0 ≤ (hi - lo) / 6)) :=
  ⟨by decide,
   C5_ordering_invariant fitter0 fitterV0 (fun _ => monotone_id)
     (fun _ => monotone_id) true false [some 1, some 2, some 3] (by decide)⟩

/-- Claim C6, as stated, is false in two ways.  `histogramm.py` keeps NaN
entries, so its `data_used` is not the elementwise absolute value of the
non-missing elements.  And in exact mode the bounds are the fitted
distribution's quantiles with no clipping at zero: with a monotone fitted
quantile function whose 0.135% quantile is negative (as a normal fit to
nonnegative data typically yields), `test55.py` returns a negative
`lower_bound` even under `use_abs_values=true`. -/
theorem C6_counterexample :
    ((Histogramm.get_robust_sigma_and_mu fitterV0 [some (-1), none] false
        true).data_used = [some 1, none] ∧
      ([some 1, none] : List Val) ≠ [some 1]) ∧
    ((Test55.get_robust_sigma_and_mu fitterNeg
        [some 0, some 1, some 2, some 3, some 4, some 5, some 6, some 7,
         some 8, some 9, some 10, some 11] true true).lsl
        = some (27 / 20000 - 1) ∧
      (27 / 20000 - 1 : ℚ) < 0) := by
  exact ⟨⟨by decide, by decide⟩, ⟨rfl, by norm_num⟩⟩

/-- Claim C6 amended: for `test55.py`'s estimator with
`use_abs_values=true` on a sample with at least one finite value, in both
modes `data_used` equals the elementwise absolute value of the non-missing
elements of the input, and in fast mode both bounds are ≥ 0 (in exact mode
the bounds come from the fitted distribution and are not clipped;
`histogramm.py` additionally keeps NaN entries in `data_used`). -/
theorem C6_amended (fitter : List ℚ → FitResult) (fd : Bool)
    (data : List Val) (hne : ((data.map vabs).filterMap id) ≠ []) :
    (Test55.get_robust_sigma_and_mu fitter data fd true).data_used
      = some ((data.filterMap id).map (fun x => |x|)) ∧
    (∃ lo hi,
      (Test55.get_robust_sigma_and_mu fitter data false true).lsl = some lo ∧
      (Test55.get_robust_sigma_and_mu fitter data false true).usl = some hi ∧
      0 ≤ lo ∧ 0 ≤ hi) := by
  have hxs_eq : (data.map vabs).filterMap id
      = (data.filterMap id).map (fun x => |x|) := filterMap_id_map_vabs data
  constructor
  · unfold Test55.get_robust_sigma_and_mu
    rw [if_pos rfl]
    simp only []
    by_cases hfit : fd = true ∧ 10 < ((data.map vabs).filterMap id).length
    · rw [if_pos hfit]
      rw [hxs_eq]
    · rw [if_neg hfit,
        if_neg (fun h0 => hne (List.length_eq_zero.mp h0))]
      rw [hxs_eq]
  · have hpos : ∀ x ∈ sortQ ((data.map vabs).filterMap id), 0 ≤ x := by
      intro x hx
      have hx2 := sortQ_mem.mp hx
      rw [hxs_eq] at hx2
      obtain ⟨y, hy, rfl⟩ := List.mem_map.mp hx2
      exact abs_nonneg y
    unfold Test55.get_robust_sigma_and_mu
    rw [if_pos rfl]
    simp only []
    rw [if_neg (by rintro ⟨hft, -⟩; simp at hft),
      if_neg (fun h0 => hne (List.length_eq_zero.mp h0))]
    exact ⟨_, _, rfl, rfl, interp_nonneg hpos _, interp_nonneg hpos _⟩

theorem C6_amended_witness :
    ((([some (-2), none, some 3] : List Val).map vabs).filterMap id) ≠ [] ∧
    ((Test55.get_robust_sigma_and_mu fitter0 [some (-2), none, some 3] true
        true).data_used
      = some ((([some (-2), none, some 3] : List Val).filterMap id).map
          (fun x => |x|)) ∧
    (∃ lo hi,
      (Test55.get_robust_sigma_and_mu fitter0 [some (-2), none, some 3] false
          true).lsl = some lo ∧
      (Test55.get_robust_sigma_and_mu fitter0 [some (-2), none, some 3] false
          true).usl = some hi ∧
      0 ≤ lo ∧ 0 ≤ hi)) :=
  ⟨by decide,
   C6_amended fitter0 true [some (-2), none, some 3] (by decide)⟩
